import Mathlib

/-!
Shallow embedding of `src/server/transform.go` (package `server`): the
blob-ingestion helper `createModelBlob` and the build pipeline
`CreateCommunityModel`, together with the external collaborators they use
(blob store, alias cache, manifest store, layer constructor), modelled as
explicit state.  Byte contents are modelled by the inductive `Content`;
the sha256 hash is an explicit function parameter `H : Content → String`
(the source computes `sha256:<hex>` of the bytes).  JSON encode/decode of
parameter maps is absorbed into the `Content.paramsJson` constructor: a
blob decodes as a parameter map exactly when it is a `paramsJson`.
-/

set_option autoImplicit false

/-- A JSON-style scalar value, standing in for Go `any` in `map[string]any`. -/
inductive JVal where
  | jnum : Int → JVal
  | jstr : String → JVal
deriving DecidableEq

/-- Go `map[string]any`, modelled as an association list in insertion order. -/
abbrev ParamMap := List (String × JVal)

/-- Association-list lookup: first binding of the key wins, like a Go map read. -/
def lookupKV {α : Type} : List (String × α) → String → Option α
  | [], _ => none
  | (k, v) :: rest, k2 => if k2 = k then some v else lookupKV rest k2

/-- Association-list update: replaces the first binding of the key, or appends. -/
def updateKV {α : Type} : List (String × α) → String → α → List (String × α)
  | [], k, v => [(k, v)]
  | (k0, v0) :: rest, k, v =>
    if k0 = k then (k, v) :: rest else (k0, v0) :: updateKV rest k v

/-- Association-list removal of a key, like Go `delete(m, k)`. -/
def eraseKV {α : Type} : List (String × α) → String → List (String × α)
  | [], _ => []
  | (k0, v) :: rest, k => if k0 = k then eraseKV rest k else (k0, v) :: eraseKV rest k

/-- First-some choice on options; used to state merge results. -/
def firstSome {α : Type} : Option α → Option α → Option α
  | some v, _ => some v
  | none, y => y

/-- Last element of a list, if any. -/
def lastOpt {α : Type} : List α → Option α
  | [] => none
  | [x] => some x
  | _ :: x :: xs => lastOpt (x :: xs)

/-- `ConfigV2` from the source: the synthesized top-level config record. -/
structure ConfigV2 where
  os : String
  architecture : String
  rootType : String
  rootDiffIDs : List String
  modelFormat : String
  modelFamily : String
  modelFamilies : List String
  modelType : String
  fileType : String
deriving DecidableEq

/-- Byte contents of a blob, with JSON decodability recorded structurally. -/
inductive Content where
  | raw : String → Content
  | paramsJson : ParamMap → Content
  | messagesJson : List String → Content
  | configJson : ConfigV2 → Content
deriving DecidableEq

/-- `Layer` from the source: digest, media type and inline status message. -/
structure Layer where
  digest : String
  mediaType : String
  status : String
deriving DecidableEq

/-- Media type of inherited message-history layers matched by the merge scan. -/
def messageMediaType : String := "application/vnd.ollama.image.message"

/-- Media type the pipeline gives a newly written message-history layer. -/
def messagesMediaType : String := "application/vnd.ollama.image.messages"

/-- Media type of parameter-overlay layers. -/
def paramsMediaType : String := "application/vnd.ollama.image.params"

/-- Media type of the config layer. -/
def configMediaType : String := "application/vnd.docker.container.image.v1+json"

/-- Media type of raw model-weights layers produced by the parser. -/
def modelMediaType : String := "application/vnd.ollama.image.model"

/-- Boolean test for the inherited message media type. -/
def isMessageLayer (l : Layer) : Bool := l.mediaType == messageMediaType

/-- Boolean test for the parameter-overlay media type. -/
def isParamsLayer (l : Layer) : Bool := l.mediaType == paramsMediaType

/-- Boolean test for either message-history media type (inherited or new). -/
def isMsgKindLayer (l : Layer) : Bool :=
  l.mediaType == messageMediaType || l.mediaType == messagesMediaType

/-- A manifest: config layer plus the ordered artifact layers. -/
structure Manifest where
  config : Layer
  layers : List Layer
deriving DecidableEq

/-- The shared mutable state: content-addressed blob store, the global
`intermediateBlobs` alias cache, and the named manifest store. -/
structure Store where
  blobs : List (String × Content)
  aliases : List (String × String)
  manifests : List (String × Manifest)
deriving DecidableEq

/-- Model metadata extracted from a GGML blob: the values the config
synthesizer reads (`GGML.Name()`, architecture, parameter-count string,
file-type string), carried as opaque strings. -/
structure GGMLInfo where
  name : String
  architecture : String
  paramCountStr : String
  fileTypeStr : String
deriving DecidableEq

/-- `layerGGML` from the source: a layer with optional GGML metadata. -/
structure LayerGGML where
  layer : Layer
  ggml : Option GGMLInfo
deriving DecidableEq

/-- Modelled from the spec: the external layer parser `parseFromFile`
(not under `src/`), an opaque deterministic capability taking the
accumulated layers, a blob and its digest, and returning updated layers
or a fatal error. -/
abbrev ParseFn := List LayerGGML → Content → String → Except String (List LayerGGML)

/-- Modelled from the spec: `NewLayer` (not under `src/`) reads the
content, names it by its computed digest, and stores it in the
content-addressed blob store; equal digests always carry identical
content, so rebinding a digest is a no-op rewrite of the same bytes. -/
def newLayer (H : Content → String) (blobs : List (String × Content))
    (c : Content) (mt : String) : Layer × List (String × Content) :=
  (⟨H c, mt, ""⟩, updateKV blobs (H c) c)

/-- The Go error text of `fmt.Errorf("digest mismatch, expected %q, got %q", ...)`. -/
def mismatchMsg (expected got : String) : String :=
  "digest mismatch, expected \"" ++ expected ++ "\", got \"" ++ got ++ "\""

/-- A source file handed to ingestion: it may fail to open, fail while
being read during layer construction, or carry content. -/
inductive SourceFile where
  | unopenable
  | unreadable
  | content : Content → SourceFile
deriving DecidableEq

/-- Opening and JSON-decoding an inherited parameter overlay
(`layer.Open()` followed by `json.Decoder.Decode` into `map[string]any`):
an absent blob is an open error, a non-map blob is a decode error. -/
def openDecodeParams (blobs : List (String × Content)) (d : String) :
    Except String ParamMap :=
  match lookupKV blobs d with
  | none => Except.error ("open layer " ++ d)
  | some (Content.paramsJson ps) => Except.ok ps
  | some _ => Except.error ("decode params " ++ d)

/-- One step of the inherited-parameter merge: insert the key only when it
is absent, as in `if _, ok := parameters[k]; !ok`. -/
def insertAbsent (ps : ParamMap) (kv : String × JVal) : ParamMap :=
  match lookupKV ps kv.1 with
  | some _ => ps
  | none => ps ++ [kv]

/-- The `slices.DeleteFunc` merge scan of `CreateCommunityModel`
(transform.go:346-381), with the closure state made explicit: the working
parameter map and the captured deferred-error slot `err2`.  A layer is
dropped from the result exactly when the Go predicate returns `true`:
inherited message layers are dropped when new messages exist, inherited
parameter overlays are decoded, folded into the parameter map
(absent keys only) and dropped, and a failed open or decode keeps the
layer, overwrites `err2` and continues the scan. -/
def mergeScan (blobs : List (String × Content)) (msgs : List String) :
    List Layer → ParamMap → Option String →
    List Layer × ParamMap × Option String
  | [], ps, e => ([], ps, e)
  | l :: ls, ps, e =>
    if l.mediaType = messageMediaType then
      if msgs.isEmpty then
        let r := mergeScan blobs msgs ls ps e
        (l :: r.1, r.2)
      else
        mergeScan blobs msgs ls ps e
    else if l.mediaType = paramsMediaType then
      match openDecodeParams blobs l.digest with
      | Except.error msg =>
        let r := mergeScan blobs msgs ls ps (some msg)
        (l :: r.1, r.2)
      | Except.ok inh =>
        mergeScan blobs msgs ls (inh.foldl insertAbsent ps) e
    else
      let r := mergeScan blobs msgs ls ps e
      (l :: r.1, r.2)

/-- The merge step of `CreateCommunityModel` after parsing
(transform.go:346-413): run the scan, surface the deferred error if any,
then append one new message-history layer when new messages exist and one
new parameter-overlay layer when the merged parameter map is non-empty.
Returns the final layer list, the merged parameters and the blob store
grown by the newly written layers. -/
def mergeLayers (blobs : List (String × Content)) (H : Content → String)
    (msgs : List String) (p0 : ParamMap) (layers : List Layer) :
    Except String (List Layer × ParamMap × List (String × Content)) :=
  match mergeScan blobs msgs layers p0 none with
  | (_, _, some e) => Except.error e
  | (kept, ps, none) =>
    let s1 :=
      if msgs.isEmpty then (kept, blobs)
      else
        let r := newLayer H blobs (Content.messagesJson msgs) messagesMediaType
        (kept ++ [r.1], r.2)
    if ps.isEmpty then Except.ok (s1.1, ps, s1.2)
    else
      let r := newLayer H s1.2 (Content.paramsJson ps) paramsMediaType
      Except.ok (s1.1 ++ [r.1], ps, r.2)

/-- `cmp.Or` on strings: the first non-zero (non-empty) argument. -/
def cmpOr (a b : String) : String := if a = "" then b else a

/-- One step of the config synthesis loop (transform.go:334-341): each
scalar field keeps its value if already non-empty, and `ModelFamilies`
accumulates every architecture seen. -/
def applyGGML (c : ConfigV2) (g : GGMLInfo) : ConfigV2 :=
  { c with
    modelFormat := cmpOr c.modelFormat g.name,
    modelFamily := cmpOr c.modelFamily g.architecture,
    modelType := cmpOr c.modelType g.paramCountStr,
    fileType := cmpOr c.fileType g.fileTypeStr,
    modelFamilies := c.modelFamilies ++ [g.architecture] }

/-- The config synthesis fold over the base layers in processing order;
layers without GGML metadata contribute nothing. -/
def foldConfig (c : ConfigV2) : List LayerGGML → ConfigV2
  | [] => c
  | bl :: bls =>
    match bl.ggml with
    | some g => foldConfig (applyGGML c g) bls
    | none => foldConfig c bls

/-- The initial `ConfigV2` literal of `CreateCommunityModel` (transform.go:280-286). -/
def initialConfig : ConfigV2 :=
  ⟨"linux", "amd64", "layers", [], "", "", [], "", ""⟩

/-- The first non-empty string of a list, or the empty string. -/
def firstNonEmpty : List String → String
  | [] => ""
  | s :: ss => if s = "" then firstNonEmpty ss else s

/-- The scalar values contributed for one config field by the base layers
with GGML metadata, in processing order. -/
def contributions (f : GGMLInfo → String) (bls : List LayerGGML) : List String :=
  (bls.filterMap (fun b => b.ggml)).map f

/-- The store with the alias entry for a digest evicted. -/
def evictAlias (st : Store) (d : String) : Store :=
  { st with aliases := eraseKV st.aliases d }

/-- The tail of `createModelBlob` after the alias-cache check
(transform.go:179-203): return early when the asserted digest already
exists, otherwise construct the layer from the source file and verify the
computed digest.  The source discards the layer-construction error with
`return nil` (transform.go:194-197); the embedding reproduces that. -/
def createBlobMain (H : Content → String) (st : Store) (digest : String)
    (f : SourceFile) : Store × Option String :=
  if (lookupKV st.blobs digest).isSome then (st, none)
  else
    match f with
    | SourceFile.unopenable => (st, some ("open source file for " ++ digest))
    | SourceFile.unreadable => (st, none)
    | SourceFile.content c =>
      let r := newLayer H st.blobs c ""
      let st2 := { st with blobs := r.2 }
      if r.1.digest = digest then (st2, none)
      else (st2, some (mismatchMsg digest r.1.digest))

/-- `createModelBlob` (transform.go:156-204): open the source file, consult
the alias cache (evicting a stale entry, or returning success on a live
one), then fall through to existence check, layer construction and digest
verification. -/
def createModelBlob (H : Content → String) (st : Store) (digest : String)
    (f : SourceFile) : Store × Option String :=
  match f with
  | SourceFile.unopenable => (st, some ("open source file for " ++ digest))
  | f =>
    match lookupKV st.aliases digest with
    | some ib =>
      if (lookupKV st.blobs ib).isSome then (st, none)
      else createBlobMain H (evictAlias st digest) digest f
    | none => createBlobMain H st digest f

/-- The alias-cache lookup at the head of the per-digest loop of
`CreateCommunityModel` (transform.go:297-312): a live alias substitutes
its target digest and emits a "using cached layer" event; a stale alias is
skipped (left in the cache) and the requested digest is used. -/
def resolveDigest (st : Store) (d : String) : List String × String :=
  match lookupKV st.aliases d with
  | some ib =>
    if (lookupKV st.blobs ib).isSome then (["using cached layer " ++ ib], ib)
    else ([], d)
  | none => ([], d)

/-- The per-digest loop of `CreateCommunityModel` (transform.go:297-332):
resolve each digest through the alias cache, open its blob and feed it to
the external parser, accumulating base layers.  The store is never
mutated by this loop. -/
def processDigests (parse : ParseFn) (st : Store) :
    List String → List LayerGGML → List String →
    Store × List String × List LayerGGML × Option String
  | ev, acc, [] => (st, ev, acc, none)
  | ev, acc, d :: ds =>
    let r := resolveDigest st d
    match lookupKV st.blobs r.2 with
    | none => (st, ev ++ r.1, acc, some ("open blob " ++ r.2))
    | some c =>
      match parse acc c r.2 with
      | Except.error e => (st, ev ++ r.1, acc, some e)
      | Except.ok acc2 => processDigests parse st (ev ++ r.1) acc2 ds

/-- Modelled from the spec: the digests referenced by the current
manifests (config layer plus artifact layers of each). -/
def referencedDigests : List (String × Manifest) → List String
  | [] => []
  | (_, m) :: rest =>
    m.config.digest :: m.layers.map (fun l => l.digest) ++ referencedDigests rest

/-- Modelled from the spec: `Manifest.RemoveLayers` (not under `src/`),
the garbage-collection step — remove the blobs owned by the superseded
manifest unless they are still referenced by a current manifest. -/
def removeLayers (st : Store) (old : Manifest) : Store :=
  let owned := old.config.digest :: old.layers.map (fun l => l.digest)
  let refs := referencedDigests st.manifests
  { st with
    blobs := st.blobs.filter (fun kv => !(owned.contains kv.1) || refs.contains kv.1) }

/-- The config record published for base layers `bl` when the final layer
list is `layers1`: the synthesized config with `RootFS.DiffIDs` the
ordered digests of `layers1`. -/
def configOf (bl : List LayerGGML) (layers1 : List Layer) : ConfigV2 :=
  { foldConfig initialConfig bl with
    rootDiffIDs := layers1.map (fun l => l.digest) }

/-- The tail of `CreateCommunityModel` after the per-digest loop
(transform.go:334-452): synthesize the config, merge the layers, compute
`RootFS.DiffIDs` from the final layer list, write the config layer, emit
layer statuses and "writing manifest", atomically write the manifest,
garbage-collect the old manifest unless pruning is disabled, and emit
"success".  `WriteManifest` and `ParseNamedManifest` are not under
`src/`; they are modelled from the spec as an atomic named manifest
store. -/
def buildFromBase (H : Content → String) (noPrune : Bool) (name : String)
    (st : Store) (ev : List String) (bl : List LayerGGML) :
    Store × List String × Option String :=
  let layers0 := bl.map (fun b => b.layer)
  match mergeLayers st.blobs H [] [] layers0 with
  | Except.error e => (st, ev, some e)
  | Except.ok (layers1, _, blobs1) =>
    let config2 := configOf bl layers1
    let r := newLayer H blobs1 (Content.configJson config2) configMediaType
    let statusEvents :=
      (layers1 ++ [r.1]).filterMap
        (fun l => if l.status = "" then none else some l.status)
    let old := lookupKV st.manifests name
    let ev2 := ev ++ statusEvents ++ ["writing manifest"]
    let st2 : Store :=
      { blobs := r.2
        aliases := st.aliases
        manifests := updateKV st.manifests name ⟨r.1, layers1⟩ }
    let st3 :=
      match old with
      | some o => if noPrune then st2 else removeLayers st2 o
      | none => st2
    (st3, ev2 ++ ["success"], none)

/-- `CreateCommunityModel` (transform.go:279-453): process every digest
through the alias cache, blob open and external parser, then build and
publish the manifest.  The working message list is the empty list the
source declares and never extends, and the working parameter map starts
empty. -/
def CreateCommunityModel (H : Content → String) (parse : ParseFn)
    (noPrune : Bool) (name : String) (digestArr : List String) (st : Store) :
    Store × List String × Option String :=
  match processDigests parse st [] [] digestArr with
  | (st1, ev, _, some e) => (st1, ev, some e)
  | (st1, ev, bl, none) => buildFromBase H noPrune name st1 ev bl

/-- Whether the alias cache holds an entry for the digest whose target
blob currently exists. -/
def aliasLive (st : Store) (d : String) : Bool :=
  match lookupKV st.aliases d with
  | some ib => (lookupKV st.blobs ib).isSome
  | none => false

/-- The open or decode errors the merge scan encounters on inherited
parameter overlays, in scan order. -/
def scanErrors (blobs : List (String × Content)) : List Layer → List String
  | [] => []
  | l :: ls =>
    if l.mediaType = paramsMediaType then
      match openDecodeParams blobs l.digest with
      | Except.error e => e :: scanErrors blobs ls
      | Except.ok _ => scanErrors blobs ls
    else scanErrors blobs ls

/-- The value an inherited key receives during the merge scan: the first
parameter overlay in scan order that decodes and contains the key wins;
overlays that fail to decode contribute nothing. -/
def inheritedLookup (blobs : List (String × Content)) :
    List Layer → String → Option JVal
  | [], _ => none
  | l :: ls, k =>
    if l.mediaType = paramsMediaType then
      match openDecodeParams blobs l.digest with
      | Except.ok ps => firstSome (lookupKV ps k) (inheritedLookup blobs ls k)
      | Except.error _ => inheritedLookup blobs ls k
    else inheritedLookup blobs ls k

/-- The keep decision of the merge scan, per layer: message-history
layers survive only when no new messages exist, parameter overlays
survive only when they fail to open or decode, everything else survives. -/
def keepPred (blobs : List (String × Content)) (msgs : List String)
    (l : Layer) : Bool :=
  if l.mediaType = messageMediaType then msgs.isEmpty
  else if l.mediaType = paramsMediaType then
    match openDecodeParams blobs l.digest with
    | Except.error _ => true
    | Except.ok _ => false
  else true

/-- The config record the pipeline publishes for a given base-layer list:
the synthesized config with `RootFS.DiffIDs` set to the ordered digests of
the final layers (which, for pass-through merges, are the base layers). -/
def cfgOf (bl : List LayerGGML) : ConfigV2 :=
  configOf bl (bl.map (fun b => b.layer))

/-- The `RootFS.DiffIDs` recorded in the config blob of the manifest
currently published under a name, if it exists and decodes. -/
def manifestConfigDiffIDs (st : Store) (name : String) : Option (List String) :=
  match lookupKV st.manifests name with
  | none => none
  | some m =>
    match lookupKV st.blobs m.config.digest with
    | some (Content.configJson c) => some c.rootDiffIDs
    | _ => none

/-- A concrete injective-by-construction content encoding, used to
instantiate the hash parameter on concrete inputs. -/
def encodeJVal : JVal → String
  | JVal.jnum n => "n" ++ toString n
  | JVal.jstr s => "s" ++ s

/-- Concrete encoding of a parameter map. -/
def encodeParams : ParamMap → String
  | [] => ""
  | (k, v) :: rest => k ++ "=" ++ encodeJVal v ++ ";" ++ encodeParams rest

/-- Concrete encoding of a string list. -/
def encodeStrList : List String → String
  | [] => ""
  | s :: rest => s ++ "," ++ encodeStrList rest

/-- Concrete encoding of a config record. -/
def encodeConfig (c : ConfigV2) : String :=
  c.os ++ "|" ++ c.architecture ++ "|" ++ c.rootType ++ "|" ++
    encodeStrList c.rootDiffIDs ++ "|" ++ c.modelFormat ++ "|" ++
    c.modelFamily ++ "|" ++ encodeStrList c.modelFamilies ++ "|" ++
    c.modelType ++ "|" ++ c.fileType

/-- Concrete encoding of blob contents. -/
def encodeContent : Content → String
  | Content.raw s => "r:" ++ s
  | Content.paramsJson ps => "p:" ++ encodeParams ps
  | Content.messagesJson ms => "m:" ++ encodeStrList ms
  | Content.configJson c => "c:" ++ encodeConfig c

/-- A concrete stand-in for the sha256 digest function on concrete inputs. -/
def sampleHash (c : Content) : String := "sha256:" ++ encodeContent c

/-- A parser shape that turns each blob into one model-weights layer named
by the blob digest, with metadata drawn from the content; the form the
external parser takes on plain GGUF inputs. -/
def simpleParse (g : Content → Option GGMLInfo) : ParseFn :=
  fun acc c d => Except.ok (acc ++ [⟨⟨d, modelMediaType, ""⟩, g c⟩])

/-- A concrete instance of `simpleParse` with fixed GGML metadata. -/
def sampleParse : ParseFn :=
  simpleParse (fun _ => some ⟨"gguf", "llama", "8B", "Q4_0"⟩)

/-- A parser returning one inherited message-history layer per blob. -/
def msgParse : ParseFn :=
  fun acc _ d => Except.ok (acc ++ [⟨⟨d, messageMediaType, ""⟩, none⟩])

/-- The store holding exactly two raw input blobs under their digests,
with empty alias cache and no manifests. -/
def twoBlobStore (H : Content → String) (a b : String) : Store :=
  ⟨[(H (Content.raw a), Content.raw a), (H (Content.raw b), Content.raw b)],
   [], []⟩

/-- The base layers produced by `simpleParse` for two raw input blobs. -/
def twoFileBase (H : Content → String) (g : Content → Option GGMLInfo)
    (a b : String) : List LayerGGML :=
  [⟨⟨H (Content.raw a), modelMediaType, ""⟩, g (Content.raw a)⟩,
   ⟨⟨H (Content.raw b), modelMediaType, ""⟩, g (Content.raw b)⟩]

theorem lookupKV_update_self {α : Type} (l : List (String × α)) (k : String) (v : α) :
    lookupKV (updateKV l k v) k = some v := by
  induction l with
  | nil => simp [updateKV, lookupKV]
  | cons hd tl ih =>
    obtain ⟨k0, v0⟩ := hd
    by_cases h : k0 = k
    · simp [updateKV, h, lookupKV]
    · simp [updateKV, h, lookupKV, Ne.symm h, ih]

theorem lookupKV_update_ne {α : Type} (l : List (String × α)) (k k2 : String) (v : α)
    (h : k2 ≠ k) : lookupKV (updateKV l k v) k2 = lookupKV l k2 := by
  induction l with
  | nil => simp [updateKV, lookupKV, h]
  | cons hd tl ih =>
    obtain ⟨k0, v0⟩ := hd
    by_cases h0 : k0 = k
    · subst h0
      simp [updateKV, lookupKV, h]
    · by_cases h2 : k2 = k0
      · simp [updateKV, h0, lookupKV, h2]
      · simp [updateKV, h0, lookupKV, h2, ih]

theorem lookupKV_erase_self {α : Type} (l : List (String × α)) (k : String) :
    lookupKV (eraseKV l k) k = none := by
  induction l with
  | nil => simp [eraseKV, lookupKV]
  | cons hd tl ih =>
    obtain ⟨k0, v0⟩ := hd
    by_cases h : k0 = k
    · simp [eraseKV, h, ih]
    · simp [eraseKV, h, lookupKV, Ne.symm h, ih]

theorem lookupKV_filter_key {α : Type} (p : String → Bool) (l : List (String × α))
    (k : String) (hp : p k = true) :
    lookupKV (l.filter (fun kv => p kv.1)) k = lookupKV l k := by
  induction l with
  | nil => simp [lookupKV]
  | cons hd tl ih =>
    obtain ⟨k0, v0⟩ := hd
    by_cases h : k = k0
    · subst h
      simp [List.filter, hp, lookupKV, ih]
    · cases hpk : p k0 <;> simp [List.filter, hpk, lookupKV, h, ih]

theorem firstSome_assoc {α : Type} (x y z : Option α) :
    firstSome (firstSome x y) z = firstSome x (firstSome y z) := by
  cases x <;> cases y <;> simp [firstSome]

theorem firstSome_none {α : Type} (y : Option α) : firstSome none y = y := rfl

theorem firstSome_some {α : Type} (v : α) (y : Option α) :
    firstSome (some v) y = some v := rfl

theorem lastOpt_cons {α : Type} (x : α) (xs : List α) :
    lastOpt (x :: xs) = firstSome (lastOpt xs) (some x) := by
  induction xs generalizing x with
  | nil => simp [lastOpt, firstSome]
  | cons y ys ih =>
    have hstep : lastOpt (x :: y :: ys) = lastOpt (y :: ys) := rfl
    rw [hstep, ih y]
    cases lastOpt ys <;> simp [firstSome]

theorem msgMT_ne_paramsMT : messageMediaType ≠ paramsMediaType := by decide

theorem paramsMT_ne_msgMT : paramsMediaType ≠ messageMediaType := by decide

theorem messagesMT_ne_msgMT : messagesMediaType ≠ messageMediaType := by decide

theorem messagesMT_ne_paramsMT : messagesMediaType ≠ paramsMediaType := by decide

theorem modelMT_ne_msgMT : modelMediaType ≠ messageMediaType := by decide

theorem modelMT_ne_paramsMT : modelMediaType ≠ paramsMediaType := by decide

theorem mergeScan_kept (blobs : List (String × Content)) (msgs : List String) :
    ∀ (ls : List Layer) (ps : ParamMap) (e : Option String),
      (mergeScan blobs msgs ls ps e).1 = ls.filter (keepPred blobs msgs) := by
  intro ls
  induction ls with
  | nil => intro ps e; simp [mergeScan]
  | cons l tl ih =>
    intro ps e
    by_cases h1 : l.mediaType = messageMediaType
    · by_cases hm : msgs = []
      · subst hm
        simp [mergeScan, h1, keepPred, msgMT_ne_paramsMT, ih]
      · simp [mergeScan, h1, hm, keepPred, msgMT_ne_paramsMT, ih]
    · by_cases h2 : l.mediaType = paramsMediaType
      · cases hd : openDecodeParams blobs l.digest with
        | error e1 =>
          simp [mergeScan, h1, h2, hd, keepPred, paramsMT_ne_msgMT, ih]
        | ok inh =>
          simp [mergeScan, h1, h2, hd, keepPred, paramsMT_ne_msgMT, ih]
      · simp [mergeScan, h1, h2, keepPred, ih]

theorem mergeScan_err (blobs : List (String × Content)) (msgs : List String) :
    ∀ (ls : List Layer) (ps : ParamMap) (e : Option String),
      (mergeScan blobs msgs ls ps e).2.2 =
        firstSome (lastOpt (scanErrors blobs ls)) e := by
  intro ls
  induction ls with
  | nil => intro ps e; simp [mergeScan, scanErrors, lastOpt, firstSome]
  | cons l tl ih =>
    intro ps e
    by_cases h1 : l.mediaType = messageMediaType
    · by_cases hm : msgs = []
      · subst hm
        simp [mergeScan, scanErrors, h1, msgMT_ne_paramsMT, ih]
      · simp [mergeScan, scanErrors, h1, hm, msgMT_ne_paramsMT, ih]
    · by_cases h2 : l.mediaType = paramsMediaType
      · cases hd : openDecodeParams blobs l.digest with
        | error e1 =>
          have hmain : (mergeScan blobs msgs (l :: tl) ps e).2.2
              = (mergeScan blobs msgs tl ps (some e1)).2.2 := by
            simp [mergeScan, h1, h2, hd, paramsMT_ne_msgMT]
          have herr : scanErrors blobs (l :: tl) = e1 :: scanErrors blobs tl := by
            simp [scanErrors, h2, hd]
          rw [hmain, herr, ih, lastOpt_cons]
          cases lastOpt (scanErrors blobs tl) <;> simp [firstSome]
        | ok inh =>
          simp [mergeScan, scanErrors, h1, h2, hd, paramsMT_ne_msgMT, ih]
      · simp [mergeScan, scanErrors, h1, h2, ih]

theorem lookup_foldl_insertAbsent :
    ∀ (inh : ParamMap) (ps : ParamMap) (k : String),
      lookupKV (List.foldl insertAbsent ps inh) k =
        firstSome (lookupKV ps k) (lookupKV inh k) := by
  intro inh
  induction inh with
  | nil => intro ps k; cases h : lookupKV ps k <;> simp [lookupKV, firstSome, h]
  | cons kv tl ih =>
    intro ps k
    obtain ⟨k1, v1⟩ := kv
    by_cases hk : k = k1
    · subst hk
      cases hps : lookupKV ps k with
      | some v =>
        simp [List.foldl, insertAbsent, hps, ih, lookupKV, firstSome]
      | none =>
        have happ : lookupKV (ps ++ [(k, v1)]) k = some v1 := by
          clear ih
          induction ps with
          | nil => simp [lookupKV]
          | cons hd2 tl2 ih2 =>
            obtain ⟨ka, va⟩ := hd2
            by_cases ha : k = ka
            · simp [lookupKV, ha] at hps
            · simp [lookupKV, ha] at hps ⊢
              exact ih2 hps
        simp [List.foldl, insertAbsent, hps, ih, happ, lookupKV, firstSome]
    · have happ : ∀ w : JVal, lookupKV (ps ++ [(k1, w)]) k = lookupKV ps k := by
        intro w
        clear ih
        induction ps with
        | nil => simp [lookupKV, hk]
        | cons hd2 tl2 ih2 =>
          obtain ⟨ka, va⟩ := hd2
          by_cases ha : k = ka
          · simp [lookupKV, ha]
          · simp [lookupKV, ha, ih2]
      cases hps : lookupKV ps k1 with
      | some v =>
        simp [List.foldl, insertAbsent, hps, ih, lookupKV, hk]
      | none =>
        simp [List.foldl, insertAbsent, hps, ih, happ, lookupKV, hk]

theorem mergeScan_params (blobs : List (String × Content)) (msgs : List String) :
    ∀ (ls : List Layer) (ps : ParamMap) (e : Option String) (k : String),
      lookupKV (mergeScan blobs msgs ls ps e).2.1 k =
        firstSome (lookupKV ps k) (inheritedLookup blobs ls k) := by
  intro ls
  induction ls with
  | nil =>
    intro ps e k
    cases h : lookupKV ps k <;> simp [mergeScan, inheritedLookup, firstSome, h]
  | cons l tl ih =>
    intro ps e k
    by_cases h1 : l.mediaType = messageMediaType
    · by_cases hm : msgs = []
      · subst hm
        simp [mergeScan, inheritedLookup, h1, msgMT_ne_paramsMT, ih]
      · simp [mergeScan, inheritedLookup, h1, hm, msgMT_ne_paramsMT, ih]
    · by_cases h2 : l.mediaType = paramsMediaType
      · cases hd : openDecodeParams blobs l.digest with
        | error e1 =>
          simp [mergeScan, inheritedLookup, h1, h2, hd, paramsMT_ne_msgMT, ih]
        | ok inh =>
          simp [mergeScan, inheritedLookup, h1, h2, hd, paramsMT_ne_msgMT, ih,
            lookup_foldl_insertAbsent, firstSome_assoc]
      · simp [mergeScan, inheritedLookup, h1, h2, ih]

theorem scanErrors_nil_of_ok (blobs : List (String × Content)) :
    ∀ ls : List Layer,
      (∀ l ∈ ls, l.mediaType = paramsMediaType →
        ∃ x, openDecodeParams blobs l.digest = Except.ok x) →
      scanErrors blobs ls = [] := by
  intro ls
  induction ls with
  | nil => intro _; simp [scanErrors]
  | cons l tl ih =>
    intro hok
    have htl := fun l2 hl2 h2 => hok l2 (List.mem_cons_of_mem l hl2) h2
    by_cases h2 : l.mediaType = paramsMediaType
    · obtain ⟨x, hx⟩ := hok l (List.mem_cons_self l tl) h2
      simp [scanErrors, h2, hx, ih htl]
    · simp [scanErrors, h2, ih htl]

theorem paramsMT_ne_messagesMT : paramsMediaType ≠ messagesMediaType := by decide

theorem filter_keep_params_nil (blobs : List (String × Content)) (msgs : List String) :
    ∀ ls : List Layer,
      (∀ l ∈ ls, l.mediaType = paramsMediaType →
        ∃ x, openDecodeParams blobs l.digest = Except.ok x) →
      (ls.filter (keepPred blobs msgs)).filter isParamsLayer = [] := by
  intro ls
  induction ls with
  | nil => intro _; simp
  | cons l tl ih =>
    intro hok
    have hrest := ih (fun l2 hl2 h2 => hok l2 (List.mem_cons_of_mem l hl2) h2)
    by_cases h1 : l.mediaType = messageMediaType
    · have hpf : isParamsLayer l = false := by
        simp [isParamsLayer, h1, msgMT_ne_paramsMT]
      cases hm : msgs.isEmpty with
      | false =>
        have hk : keepPred blobs msgs l = false := by simp [keepPred, h1, hm]
        simp [List.filter_cons, hk, hrest]
      | true =>
        have hk : keepPred blobs msgs l = true := by simp [keepPred, h1, hm]
        simp [List.filter_cons, hk, hpf, hrest]
    · by_cases h2 : l.mediaType = paramsMediaType
      · obtain ⟨x, hx⟩ := hok l (List.mem_cons_self l tl) h2
        have hk : keepPred blobs msgs l = false := by simp [keepPred, h1, h2, hx, paramsMT_ne_msgMT]
        simp [List.filter_cons, hk, hrest]
      · have hk : keepPred blobs msgs l = true := by simp [keepPred, h1, h2]
        have hpf : isParamsLayer l = false := by simp [isParamsLayer, h2]
        simp [List.filter_cons, hk, hpf, hrest]

theorem filter_keep_message_of_empty (blobs : List (String × Content)) :
    ∀ ls : List Layer,
      ((ls.filter (keepPred blobs [])).filter isMessageLayer
        = ls.filter isMessageLayer) := by
  intro ls
  induction ls with
  | nil => simp
  | cons l tl ih =>
    by_cases h1 : l.mediaType = messageMediaType
    · have hk : keepPred blobs [] l = true := by simp [keepPred, h1]
      have hmf : isMessageLayer l = true := by simp [isMessageLayer, h1]
      simp [List.filter_cons, hk, hmf, ih]
    · have hmf : isMessageLayer l = false := by simp [isMessageLayer, h1]
      by_cases h2 : l.mediaType = paramsMediaType
      · cases hd : openDecodeParams blobs l.digest with
        | error e1 =>
          have hk : keepPred blobs [] l = true := by simp [keepPred, h1, h2, hd, paramsMT_ne_msgMT]
          simp [List.filter_cons, hk, hmf, ih]
        | ok inh =>
          have hk : keepPred blobs [] l = false := by simp [keepPred, h1, h2, hd, paramsMT_ne_msgMT]
          simp [List.filter_cons, hk, hmf, ih]
      · have hk : keepPred blobs [] l = true := by simp [keepPred, h1, h2]
        simp [List.filter_cons, hk, hmf, ih]

theorem filter_keep_message_of_nonempty (blobs : List (String × Content))
    (msgs : List String) (hm : msgs ≠ []) :
    ∀ ls : List Layer,
      (ls.filter (keepPred blobs msgs)).filter isMessageLayer = [] := by
  intro ls
  induction ls with
  | nil => simp
  | cons l tl ih =>
    by_cases h1 : l.mediaType = messageMediaType
    · have hk : keepPred blobs msgs l = false := by simp [keepPred, h1, hm]
      simp [List.filter_cons, hk, ih]
    · have hmf : isMessageLayer l = false := by simp [isMessageLayer, h1]
      by_cases h2 : l.mediaType = paramsMediaType
      · cases hd : openDecodeParams blobs l.digest with
        | error e1 =>
          have hk : keepPred blobs msgs l = true := by simp [keepPred, h1, h2, hd, paramsMT_ne_msgMT]
          simp [List.filter_cons, hk, hmf, ih]
        | ok inh =>
          have hk : keepPred blobs msgs l = false := by simp [keepPred, h1, h2, hd, paramsMT_ne_msgMT]
          simp [List.filter_cons, hk, ih]
      · have hk : keepPred blobs msgs l = true := by simp [keepPred, h1, h2]
        simp [List.filter_cons, hk, hmf, ih]

theorem filter_keep_msgkind_of_empty (blobs : List (String × Content)) :
    ∀ ls : List Layer,
      ((ls.filter (keepPred blobs [])).filter isMsgKindLayer
        = ls.filter isMsgKindLayer) := by
  intro ls
  induction ls with
  | nil => simp
  | cons l tl ih =>
    by_cases h1 : l.mediaType = messageMediaType
    · have hk : keepPred blobs [] l = true := by simp [keepPred, h1]
      have hmf : isMsgKindLayer l = true := by simp [isMsgKindLayer, h1]
      simp [List.filter_cons, hk, hmf, ih]
    · by_cases h2 : l.mediaType = paramsMediaType
      · have hmf : isMsgKindLayer l = false := by
          simp [isMsgKindLayer, h2, paramsMT_ne_msgMT, paramsMT_ne_messagesMT]
        cases hd : openDecodeParams blobs l.digest with
        | error e1 =>
          have hk : keepPred blobs [] l = true := by simp [keepPred, h1, h2, hd, paramsMT_ne_msgMT]
          simp [List.filter_cons, hk, hmf, ih]
        | ok inh =>
          have hk : keepPred blobs [] l = false := by simp [keepPred, h1, h2, hd, paramsMT_ne_msgMT]
          simp [List.filter_cons, hk, hmf, ih]
      · have hk : keepPred blobs [] l = true := by simp [keepPred, h1, h2]
        simp [List.filter_cons, hk, ih]

theorem lastOpt_of_ne_nil {α : Type} (l : List α) (h : l ≠ []) :
    ∃ x, lastOpt l = some x := by
  cases l with
  | nil => exact absurd rfl h
  | cons y ys =>
    rw [lastOpt_cons]
    cases lastOpt ys with
    | none => exact ⟨y, rfl⟩
    | some v => exact ⟨v, rfl⟩

/-- Claim C1: for every inherited parameter-overlay layer and every map of
newly-specified parameters, the merge scan decodes the inherited overlay
into a key-to-value map and carries forward exactly those inherited keys
absent from the new parameter map (keys present in the new map keep their
new values); the inherited overlay layer is removed from the final layer
list, and exactly one new parameter-overlay layer is appended if and only
if the merged map is non-empty. -/
theorem claim_C1_param_merge (blobs : List (String × Content))
    (H : Content → String) (msgs : List String) (p0 : ParamMap)
    (layers : List Layer)
    (hok : ∀ l ∈ layers, l.mediaType = paramsMediaType →
      ∃ x, openDecodeParams blobs l.digest = Except.ok x) :
    ∃ final pFin blobs2,
      mergeLayers blobs H msgs p0 layers = Except.ok (final, pFin, blobs2)
      ∧ final.filter isParamsLayer
          = (if pFin.isEmpty then ([] : List Layer)
             else [⟨H (Content.paramsJson pFin), paramsMediaType, ""⟩])
      ∧ ∀ k, lookupKV pFin k
          = firstSome (lookupKV p0 k) (inheritedLookup blobs layers k) := by
  rcases hscan : mergeScan blobs msgs layers p0 none with ⟨kept, ps2, e2⟩
  have he2 : e2 = none := by
    have h := mergeScan_err blobs msgs layers p0 none
    rw [hscan] at h
    simpa [scanErrors_nil_of_ok blobs layers hok, lastOpt, firstSome] using h
  subst he2
  have hkept : kept = layers.filter (keepPred blobs msgs) := by
    have h := mergeScan_kept blobs msgs layers p0 none
    rw [hscan] at h
    exact h
  have hps : ∀ k, lookupKV ps2 k
      = firstSome (lookupKV p0 k) (inheritedLookup blobs layers k) := by
    intro k
    have h := mergeScan_params blobs msgs layers p0 none k
    rw [hscan] at h
    exact h
  have hkeptP : kept.filter isParamsLayer = [] := by
    rw [hkept]
    exact filter_keep_params_nil blobs msgs layers hok
  cases hm : msgs.isEmpty with
  | true =>
    cases hp : ps2.isEmpty with
    | true =>
      refine ⟨kept, ps2, blobs, ?_, ?_, hps⟩
      · simp [mergeLayers, hscan, hm, hp]
      · simp [hp, hkeptP]
    | false =>
      refine ⟨kept ++ [⟨H (Content.paramsJson ps2), paramsMediaType, ""⟩], ps2,
        updateKV blobs (H (Content.paramsJson ps2)) (Content.paramsJson ps2),
        ?_, ?_, hps⟩
      · simp [mergeLayers, hscan, hm, hp, newLayer]
      · simp [hp, List.filter_append, hkeptP, isParamsLayer]
  | false =>
    cases hp : ps2.isEmpty with
    | true =>
      refine ⟨kept ++ [⟨H (Content.messagesJson msgs), messagesMediaType, ""⟩],
        ps2,
        updateKV blobs (H (Content.messagesJson msgs)) (Content.messagesJson msgs),
        ?_, ?_, hps⟩
      · simp [mergeLayers, hscan, hm, hp, newLayer]
      · simp [hp, List.filter_append, hkeptP, isParamsLayer,
          messagesMT_ne_paramsMT]
    | false =>
      refine ⟨(kept ++ [⟨H (Content.messagesJson msgs), messagesMediaType, ""⟩])
          ++ [⟨H (Content.paramsJson ps2), paramsMediaType, ""⟩], ps2,
        updateKV
          (updateKV blobs (H (Content.messagesJson msgs)) (Content.messagesJson msgs))
          (H (Content.paramsJson ps2)) (Content.paramsJson ps2),
        ?_, ?_, hps⟩
      · simp [mergeLayers, hscan, hm, hp, newLayer]
      · simp [hp, List.filter_append, hkeptP, isParamsLayer,
          messagesMT_ne_paramsMT]

/-- Witness for C1 at the merge-law example of the spec: inherited
parameters a=1, b=2 merged with new parameters b=3, c=4. -/
theorem claim_C1_param_merge_witness :
    ∃ final pFin blobs2,
      mergeLayers [("sha256:pov",
          Content.paramsJson [("a", JVal.jnum 1), ("b", JVal.jnum 2)])]
        sampleHash [] [("b", JVal.jnum 3), ("c", JVal.jnum 4)]
        [⟨"sha256:pov", paramsMediaType, ""⟩] = Except.ok (final, pFin, blobs2)
      ∧ final.filter isParamsLayer
          = (if pFin.isEmpty then ([] : List Layer)
             else [⟨sampleHash (Content.paramsJson pFin), paramsMediaType, ""⟩])
      ∧ ∀ k, lookupKV pFin k
          = firstSome (lookupKV [("b", JVal.jnum 3), ("c", JVal.jnum 4)] k)
              (inheritedLookup [("sha256:pov",
                Content.paramsJson [("a", JVal.jnum 1), ("b", JVal.jnum 2)])]
                [⟨"sha256:pov", paramsMediaType, ""⟩] k) :=
  claim_C1_param_merge _ sampleHash [] _ _ (by
    intro l hl h
    simp only [List.mem_singleton] at hl
    subst hl
    exact ⟨[("a", JVal.jnum 1), ("b", JVal.jnum 2)], rfl⟩)

/-- Claim C2: if the build contributes one or more new message-history
entries, every inherited message-history layer is removed from the final
layer list (full override); if it contributes none, every inherited
message-history layer is kept unchanged in the final list.  Inherited
message-history layers are the layers carrying the message media type the
merge scan matches. -/
theorem claim_C2_message_override (blobs : List (String × Content))
    (H : Content → String) (msgs : List String) (p0 : ParamMap)
    (layers final : List Layer) (pFin : ParamMap)
    (blobs2 : List (String × Content))
    (h : mergeLayers blobs H msgs p0 layers = Except.ok (final, pFin, blobs2)) :
    (msgs ≠ [] → final.filter isMessageLayer = [])
    ∧ (msgs = [] → final.filter isMessageLayer = layers.filter isMessageLayer) := by
  rcases hscan : mergeScan blobs msgs layers p0 none with ⟨kept, ps2, e2⟩
  have hkept : kept = layers.filter (keepPred blobs msgs) := by
    have h2 := mergeScan_kept blobs msgs layers p0 none
    rw [hscan] at h2
    exact h2
  cases e2 with
  | some e => simp [mergeLayers, hscan] at h
  | none =>
    cases hm : msgs.isEmpty with
    | true =>
      have hm2 : msgs = [] := by simpa using hm
      subst hm2
      cases hp : ps2.isEmpty with
      | true =>
        simp only [mergeLayers, hscan, hm, hp] at h
        simp only [List.isEmpty_nil, if_true, if_pos rfl] at h
        obtain ⟨hf, _, _⟩ := by
          simpa [Prod.ext_iff] using (Except.ok.inj h)
        constructor
        · intro hne; exact absurd rfl hne
        · intro _
          rw [← hf, hkept]
          exact filter_keep_message_of_empty blobs layers
      | false =>
        simp only [mergeLayers, hscan, List.isEmpty_nil, if_true, hp,
          if_false, Bool.false_eq_true, newLayer] at h
        obtain ⟨hf, _, _⟩ := by
          simpa [Prod.ext_iff] using (Except.ok.inj h)
        constructor
        · intro hne; exact absurd rfl hne
        · intro _
          rw [← hf, List.filter_append, hkept,
            filter_keep_message_of_empty blobs layers]
          simp [isMessageLayer, paramsMT_ne_msgMT]
    | false =>
      have hm2 : msgs ≠ [] := by simpa using hm
      have hkm : kept.filter isMessageLayer = [] := by
        rw [hkept]
        exact filter_keep_message_of_nonempty blobs msgs hm2 layers
      cases hp : ps2.isEmpty with
      | true =>
        simp only [mergeLayers, hscan, hm, hp, Bool.false_eq_true, if_false,
          if_true, newLayer] at h
        obtain ⟨hf, _, _⟩ := by
          simpa [Prod.ext_iff] using (Except.ok.inj h)
        constructor
        · intro _
          rw [← hf, List.filter_append, hkm]
          simp [isMessageLayer, messagesMT_ne_msgMT]
        · intro heq; exact absurd heq hm2
      | false =>
        simp only [mergeLayers, hscan, hm, hp, Bool.false_eq_true, if_false,
          newLayer] at h
        obtain ⟨hf, _, _⟩ := by
          simpa [Prod.ext_iff] using (Except.ok.inj h)
        constructor
        · intro _
          rw [← hf, List.filter_append, hkm]
          simp [isMessageLayer, messagesMT_ne_msgMT, paramsMT_ne_msgMT]
        · intro heq; exact absurd heq hm2

/-- Witness for C2: one inherited message-history layer and one new
message; the inherited layer is absent from the final list. -/
theorem claim_C2_message_override_witness :
    (["hello"] ≠ ([] : List String) →
      (([⟨sampleHash (Content.messagesJson ["hello"]), messagesMediaType, ""⟩]
        : List Layer).filter isMessageLayer = []))
    ∧ (["hello"] = ([] : List String) →
      (([⟨sampleHash (Content.messagesJson ["hello"]), messagesMediaType, ""⟩]
        : List Layer).filter isMessageLayer
        = ([⟨"sha256:old", messageMediaType, ""⟩] : List Layer).filter
            isMessageLayer)) :=
  claim_C2_message_override [] sampleHash ["hello"] []
    [⟨"sha256:old", messageMediaType, ""⟩]
    [⟨sampleHash (Content.messagesJson ["hello"]), messagesMediaType, ""⟩]
    [] (updateKV [] (sampleHash (Content.messagesJson ["hello"]))
      (Content.messagesJson ["hello"])) rfl

/-- Counterexample to claim C3 as stated: two inherited parameter overlays
fail to open, and the error surfaced after the scan is the second (last)
error encountered, not the first. -/
theorem claim_C3_counterexample :
    scanErrors ([] : List (String × Content))
        [⟨"sha256:q1", paramsMediaType, ""⟩, ⟨"sha256:q2", paramsMediaType, ""⟩]
      = ["open layer sha256:q1", "open layer sha256:q2"]
    ∧ mergeLayers ([] : List (String × Content)) sampleHash [] []
        [⟨"sha256:q1", paramsMediaType, ""⟩, ⟨"sha256:q2", paramsMediaType, ""⟩]
      = Except.error "open layer sha256:q2"
    ∧ ("open layer sha256:q2" : String) ≠ "open layer sha256:q1" :=
  ⟨rfl, rfl, by decide⟩

/-- Claim C3 (amended): when one or more inherited parameter overlays fail
to open or decode during the merge scan, the scan runs to completion over
all layers (decodable overlays after a failure are still merged into the
parameter map), the build then fails with a decode error, and the error
surfaced is the last error encountered during the scan. -/
theorem claim_C3_deferred_error (blobs : List (String × Content))
    (H : Content → String) (msgs : List String) (p0 : ParamMap)
    (layers : List Layer) (hne : scanErrors blobs layers ≠ []) :
    ∃ e, lastOpt (scanErrors blobs layers) = some e
      ∧ mergeLayers blobs H msgs p0 layers = Except.error e
      ∧ ∀ k, lookupKV (mergeScan blobs msgs layers p0 none).2.1 k
          = firstSome (lookupKV p0 k) (inheritedLookup blobs layers k) := by
  obtain ⟨e, he⟩ := lastOpt_of_ne_nil _ hne
  refine ⟨e, he, ?_, fun k => mergeScan_params blobs msgs layers p0 none k⟩
  rcases hscan : mergeScan blobs msgs layers p0 none with ⟨kept, ps2, e2⟩
  have he2 : e2 = some e := by
    have h := mergeScan_err blobs msgs layers p0 none
    rw [hscan] at h
    rw [he] at h
    simpa [firstSome] using h
  subst he2
  simp [mergeLayers, hscan]

/-- Witness for C3 (amended): one undecodable overlay followed by a
decodable one; the build fails with the deferred error while the later
overlay was still merged. -/
theorem claim_C3_deferred_error_witness :
    ∃ e, lastOpt (scanErrors
        [("sha256:w1", Content.raw "junk"),
         ("sha256:w2", Content.paramsJson [("k", JVal.jnum 7)])]
        [⟨"sha256:w1", paramsMediaType, ""⟩, ⟨"sha256:w2", paramsMediaType, ""⟩])
      = some e
    ∧ mergeLayers
        [("sha256:w1", Content.raw "junk"),
         ("sha256:w2", Content.paramsJson [("k", JVal.jnum 7)])]
        sampleHash [] []
        [⟨"sha256:w1", paramsMediaType, ""⟩, ⟨"sha256:w2", paramsMediaType, ""⟩]
      = Except.error e
    ∧ ∀ k, lookupKV (mergeScan
        [("sha256:w1", Content.raw "junk"),
         ("sha256:w2", Content.paramsJson [("k", JVal.jnum 7)])]
        []
        [⟨"sha256:w1", paramsMediaType, ""⟩, ⟨"sha256:w2", paramsMediaType, ""⟩]
        [] none).2.1 k
      = firstSome (lookupKV [] k)
          (inheritedLookup
            [("sha256:w1", Content.raw "junk"),
             ("sha256:w2", Content.paramsJson [("k", JVal.jnum 7)])]
            [⟨"sha256:w1", paramsMediaType, ""⟩,
             ⟨"sha256:w2", paramsMediaType, ""⟩] k) :=
  claim_C3_deferred_error _ sampleHash [] [] _ (by decide)

theorem cmpOr_assoc (a b c : String) :
    cmpOr (cmpOr a b) c = cmpOr a (cmpOr b c) := by
  by_cases ha : a = "" <;> by_cases hb : b = "" <;> simp [cmpOr, ha, hb]

theorem cmpOr_empty_right (a : String) : cmpOr a "" = a := by
  by_cases ha : a = "" <;> simp [cmpOr, ha]

theorem firstNonEmpty_cons (s : String) (ss : List String) :
    firstNonEmpty (s :: ss) = cmpOr s (firstNonEmpty ss) := rfl

theorem foldConfig_fields :
    ∀ (bls : List LayerGGML) (c : ConfigV2),
      (foldConfig c bls).modelFormat
          = cmpOr c.modelFormat
              (firstNonEmpty (contributions (fun g => g.name) bls))
      ∧ (foldConfig c bls).modelFamily
          = cmpOr c.modelFamily
              (firstNonEmpty (contributions (fun g => g.architecture) bls))
      ∧ (foldConfig c bls).modelType
          = cmpOr c.modelType
              (firstNonEmpty (contributions (fun g => g.paramCountStr) bls))
      ∧ (foldConfig c bls).fileType
          = cmpOr c.fileType
              (firstNonEmpty (contributions (fun g => g.fileTypeStr) bls)) := by
  intro bls
  induction bls with
  | nil =>
    intro c
    simp [foldConfig, contributions, firstNonEmpty, cmpOr_empty_right]
  | cons b tl ih =>
    intro c
    cases hg : b.ggml with
    | none =>
      have hc : ∀ f : GGMLInfo → String,
          contributions f (b :: tl) = contributions f tl := by
        intro f; simp [contributions, hg]
      simp only [foldConfig, hg, hc]
      exact ih c
    | some g =>
      have hc : ∀ f : GGMLInfo → String,
          contributions f (b :: tl) = f g :: contributions f tl := by
        intro f; simp [contributions, hg]
      have hstep : foldConfig c (b :: tl) = foldConfig (applyGGML c g) tl := by
        simp [foldConfig, hg]
      obtain ⟨h1, h2, h3, h4⟩ := ih (applyGGML c g)
      have ha1 : (applyGGML c g).modelFormat = cmpOr c.modelFormat g.name := rfl
      have ha2 : (applyGGML c g).modelFamily
          = cmpOr c.modelFamily g.architecture := rfl
      have ha3 : (applyGGML c g).modelType
          = cmpOr c.modelType g.paramCountStr := rfl
      have ha4 : (applyGGML c g).fileType = cmpOr c.fileType g.fileTypeStr := rfl
      refine ⟨?_, ?_, ?_, ?_⟩ <;>
        rw [hstep] <;>
        simp only [h1, h2, h3, h4, ha1, ha2, ha3, ha4, hc,
          firstNonEmpty_cons, cmpOr_assoc]

/-- Claim C7: for every sequence of base layers processed in order, each
scalar config field (ModelFormat, ModelFamily, ModelType, FileType) of
the synthesized config equals the first non-empty value contributed by
any base layer in processing order; later non-empty values for an
already-set field are ignored. -/
theorem claim_C7_config_first_write_wins (bls : List LayerGGML) :
    (foldConfig initialConfig bls).modelFormat
        = firstNonEmpty (contributions (fun g => g.name) bls)
    ∧ (foldConfig initialConfig bls).modelFamily
        = firstNonEmpty (contributions (fun g => g.architecture) bls)
    ∧ (foldConfig initialConfig bls).modelType
        = firstNonEmpty (contributions (fun g => g.paramCountStr) bls)
    ∧ (foldConfig initialConfig bls).fileType
        = firstNonEmpty (contributions (fun g => g.fileTypeStr) bls) := by
  obtain ⟨h1, h2, h3, h4⟩ := foldConfig_fields bls initialConfig
  refine ⟨?_, ?_, ?_, ?_⟩
  · rw [h1]; simp [initialConfig, cmpOr]
  · rw [h2]; simp [initialConfig, cmpOr]
  · rw [h3]; simp [initialConfig, cmpOr]
  · rw [h4]; simp [initialConfig, cmpOr]

theorem createBlobMain_aliases (H : Content → String) (st : Store)
    (d : String) (f : SourceFile) :
    (createBlobMain H st d f).1.aliases = st.aliases := by
  cases hp : (lookupKV st.blobs d).isSome with
  | true => simp [createBlobMain, hp]
  | false =>
    cases f with
    | unopenable => simp [createBlobMain, hp]
    | unreadable => simp [createBlobMain, hp]
    | content c =>
      by_cases hd : H c = d <;> simp [createBlobMain, hp, newLayer, hd]

/-- Claim C5 (code-bug exhibit): when the asserted digest is absent, no
alias entry exists, the source file opens, but layer construction fails
while reading it, `createModelBlob` returns no error — the source
discards the `NewLayer` error with `return nil` (transform.go:194-197),
so the failure is silently swallowed instead of being surfaced. -/
theorem claim_C5_swallowed_error :
    createModelBlob sampleHash ⟨[], [], []⟩ "sha256:r:wanted"
        SourceFile.unreadable
      = (⟨[], [], []⟩, none) := rfl

/-- Counterexample to claim C4 as stated: (a) with a live alias entry for
the asserted digest, ingestion returns no error even though the asserted
digest is absent from the store and the source content hashes to a
different digest — the digest-mismatch check is bypassed; (b) with the
asserted digest already present but the source file failing to open,
ingestion returns an error rather than being a no-op. -/
theorem claim_C4_counterexample :
    (createModelBlob sampleHash
        ⟨[("sha256:r:T", Content.raw "T")], [("sha256:dA", "sha256:r:T")], []⟩
        "sha256:dA" (SourceFile.content (Content.raw "Z"))
      = (⟨[("sha256:r:T", Content.raw "T")], [("sha256:dA", "sha256:r:T")], []⟩,
         none))
    ∧ sampleHash (Content.raw "Z") ≠ "sha256:dA"
    ∧ lookupKV ([("sha256:r:T", Content.raw "T")] : List (String × Content))
        "sha256:dA" = none
    ∧ (createModelBlob sampleHash ⟨[("sha256:dB", Content.raw "Q")], [], []⟩
        "sha256:dB" SourceFile.unopenable).2 ≠ none :=
  ⟨rfl, by decide, rfl, by decide⟩

/-- Claim C4 (amended): for every ingestion where the asserted digest is
not already present and no live alias entry covers it, a source whose
content hashes to a different digest fails with the digest-mismatch error
and is not stored under the asserted digest; and for every ingestion
where the asserted digest is already present and the source file opens,
ingestion returns no error and leaves the blob store unchanged. -/
theorem claim_C4_digest_verification (H : Content → String) (st : Store)
    (d : String) :
    (∀ c : Content, aliasLive st d = false → lookupKV st.blobs d = none →
      H c ≠ d →
      (createModelBlob H st d (SourceFile.content c)).2
          = some (mismatchMsg d (H c))
      ∧ lookupKV (createModelBlob H st d (SourceFile.content c)).1.blobs d
          = none)
    ∧ (∀ f : SourceFile, f ≠ SourceFile.unopenable →
      (lookupKV st.blobs d).isSome = true →
      (createModelBlob H st d f).2 = none
      ∧ (createModelBlob H st d f).1.blobs = st.blobs) := by
  constructor
  · intro c hal habs hne
    have hmain : ∀ st2 : Store, st2.blobs = st.blobs →
        (createBlobMain H st2 d (SourceFile.content c)).2
            = some (mismatchMsg d (H c))
        ∧ lookupKV (createBlobMain H st2 d (SourceFile.content c)).1.blobs d
            = none := by
      intro st2 hb
      have habs2 : lookupKV st2.blobs d = none := by rw [hb]; exact habs
      constructor
      · simp [createBlobMain, habs2, newLayer, hne]
      · simp only [createBlobMain, habs2, Option.isSome_none,
          Bool.false_eq_true, if_false, newLayer, hne]
        rw [lookupKV_update_ne st2.blobs (H c) d c (fun h => hne h.symm)]
        exact habs2
    cases halk : lookupKV st.aliases d with
    | none =>
      have heq : createModelBlob H st d (SourceFile.content c)
          = createBlobMain H st d (SourceFile.content c) := by
        simp [createModelBlob, halk]
      rw [heq]
      exact hmain st rfl
    | some ib =>
      have hdead : (lookupKV st.blobs ib).isSome = false := by
        have := hal
        simp [aliasLive, halk] at this
        simp [this]
      have heq : createModelBlob H st d (SourceFile.content c)
          = createBlobMain H (evictAlias st d) d (SourceFile.content c) := by
        simp [createModelBlob, halk, hdead]
      rw [heq]
      exact hmain (evictAlias st d) rfl
  · intro f hf hpres
    have hmain : ∀ st2 : Store, st2.blobs = st.blobs →
        (createBlobMain H st2 d f).2 = none
        ∧ (createBlobMain H st2 d f).1.blobs = st.blobs := by
      intro st2 hb
      have hpres2 : (lookupKV st2.blobs d).isSome = true := by
        rw [hb]; exact hpres
      constructor <;> simp [createBlobMain, hpres2, hpres, hb]
    cases f with
    | unopenable => exact absurd rfl hf
    | unreadable =>
      cases halk : lookupKV st.aliases d with
      | none =>
        have heq : createModelBlob H st d SourceFile.unreadable
            = createBlobMain H st d SourceFile.unreadable := by
          simp [createModelBlob, halk]
        rw [heq]
        exact hmain st rfl
      | some ib =>
        cases hlive : (lookupKV st.blobs ib).isSome with
        | true =>
          have heq : createModelBlob H st d SourceFile.unreadable = (st, none) := by
            simp [createModelBlob, halk, hlive]
          rw [heq]
          exact ⟨rfl, rfl⟩
        | false =>
          have heq : createModelBlob H st d SourceFile.unreadable
              = createBlobMain H (evictAlias st d) d SourceFile.unreadable := by
            simp [createModelBlob, halk, hlive]
          rw [heq]
          exact hmain (evictAlias st d) rfl
    | content c =>
      cases halk : lookupKV st.aliases d with
      | none =>
        have heq : createModelBlob H st d (SourceFile.content c)
            = createBlobMain H st d (SourceFile.content c) := by
          simp [createModelBlob, halk]
        rw [heq]
        exact hmain st rfl
      | some ib =>
        cases hlive : (lookupKV st.blobs ib).isSome with
        | true =>
          have heq : createModelBlob H st d (SourceFile.content c) = (st, none) := by
            simp [createModelBlob, halk, hlive]
          rw [heq]
          exact ⟨rfl, rfl⟩
        | false =>
          have heq : createModelBlob H st d (SourceFile.content c)
              = createBlobMain H (evictAlias st d) d (SourceFile.content c) := by
            simp [createModelBlob, halk, hlive]
          rw [heq]
          exact hmain (evictAlias st d) rfl

/-- Witness for C4 (amended): a mismatching source fails with the digest
mismatch error and is not stored under the asserted digest; an already
present digest with an openable source is a no-op. -/
theorem claim_C4_digest_verification_witness :
    ((createModelBlob sampleHash ⟨[], [], []⟩ "sha256:want"
        (SourceFile.content (Content.raw "Z"))).2
      = some (mismatchMsg "sha256:want" (sampleHash (Content.raw "Z")))
    ∧ lookupKV (createModelBlob sampleHash ⟨[], [], []⟩ "sha256:want"
        (SourceFile.content (Content.raw "Z"))).1.blobs "sha256:want" = none)
    ∧ ((createModelBlob sampleHash
        ⟨[("sha256:have", Content.raw "Q")], [], []⟩
        "sha256:have" (SourceFile.content (Content.raw "ZZ"))).2 = none
    ∧ (createModelBlob sampleHash
        ⟨[("sha256:have", Content.raw "Q")], [], []⟩
        "sha256:have" (SourceFile.content (Content.raw "ZZ"))).1.blobs
      = (⟨[("sha256:have", Content.raw "Q")], [], []⟩ : Store).blobs) :=
  ⟨(claim_C4_digest_verification sampleHash ⟨[], [], []⟩ "sha256:want").1
      (Content.raw "Z") rfl rfl (by decide),
   (claim_C4_digest_verification sampleHash
      ⟨[("sha256:have", Content.raw "Q")], [], []⟩ "sha256:have").2
      (SourceFile.content (Content.raw "ZZ")) (by decide) rfl⟩

/-- Claim C6 (amended): for an alias-cache entry consulted by ingestion
(`createModelBlob`), a stale alias (target blob missing) is evicted from
the cache and ingestion proceeds exactly as if the alias were absent,
falling back to the requested digest, while a live alias returns success
immediately with no progress event; for the build-loop lookup
(`CreateCommunityModel`), a stale alias is skipped but left in the cache
with resolution falling back to the requested digest, while a live alias
substitutes the target digest and emits the "using cached layer" event. -/
theorem claim_C6_alias_resolution (H : Content → String) (st : Store)
    (d ib : String) (f : SourceFile)
    (halias : lookupKV st.aliases d = some ib)
    (hopen : f ≠ SourceFile.unopenable) :
    ((lookupKV st.blobs ib).isSome = false →
      createModelBlob H st d f = createModelBlob H (evictAlias st d) d f
      ∧ lookupKV (createModelBlob H st d f).1.aliases d = none
      ∧ resolveDigest st d = ([], d))
    ∧ ((lookupKV st.blobs ib).isSome = true →
      createModelBlob H st d f = (st, none)
      ∧ resolveDigest st d = (["using cached layer " ++ ib], ib)) := by
  have herase : lookupKV (evictAlias st d).aliases d = none := by
    simp [evictAlias, lookupKV_erase_self]
  constructor
  · intro hdead
    have h1 : createModelBlob H st d f
        = createBlobMain H (evictAlias st d) d f := by
      cases f with
      | unopenable => exact absurd rfl hopen
      | unreadable => simp [createModelBlob, halias, hdead]
      | content c => simp [createModelBlob, halias, hdead]
    have h2 : createModelBlob H (evictAlias st d) d f
        = createBlobMain H (evictAlias st d) d f := by
      cases f with
      | unopenable => exact absurd rfl hopen
      | unreadable => simp [createModelBlob, herase]
      | content c => simp [createModelBlob, herase]
    refine ⟨h1.trans h2.symm, ?_, ?_⟩
    · rw [h1, createBlobMain_aliases]
      exact herase
    · simp [resolveDigest, halias, hdead]
  · intro hlive
    constructor
    · cases f with
      | unopenable => exact absurd rfl hopen
      | unreadable => simp [createModelBlob, halias, hlive]
      | content c => simp [createModelBlob, halias, hlive]
    · simp [resolveDigest, halias, hlive]

/-- Witness for C6 (amended), at a stale-alias store and a live-alias
store. -/
theorem claim_C6_alias_resolution_witness :
    (((lookupKV ([("sha256:r:X", Content.raw "X")] : List (String × Content))
        "gone").isSome = false →
      createModelBlob sampleHash
          ⟨[("sha256:r:X", Content.raw "X")], [("dq", "gone")], []⟩ "dq"
          (SourceFile.content (Content.raw "Y"))
        = createModelBlob sampleHash
          (evictAlias ⟨[("sha256:r:X", Content.raw "X")], [("dq", "gone")], []⟩
            "dq") "dq" (SourceFile.content (Content.raw "Y"))
      ∧ lookupKV (createModelBlob sampleHash
          ⟨[("sha256:r:X", Content.raw "X")], [("dq", "gone")], []⟩ "dq"
          (SourceFile.content (Content.raw "Y"))).1.aliases "dq" = none
      ∧ resolveDigest
          ⟨[("sha256:r:X", Content.raw "X")], [("dq", "gone")], []⟩ "dq"
        = ([], "dq"))
    ∧ ((lookupKV ([("sha256:r:X", Content.raw "X")] : List (String × Content))
        "gone").isSome = true →
      createModelBlob sampleHash
          ⟨[("sha256:r:X", Content.raw "X")], [("dq", "gone")], []⟩ "dq"
          (SourceFile.content (Content.raw "Y"))
        = (⟨[("sha256:r:X", Content.raw "X")], [("dq", "gone")], []⟩, none)
      ∧ resolveDigest
          ⟨[("sha256:r:X", Content.raw "X")], [("dq", "gone")], []⟩ "dq"
        = (["using cached layer " ++ "gone"], "gone")))
    ∧ (((lookupKV ([("tgt", Content.raw "X")] : List (String × Content))
        "tgt").isSome = false →
      createModelBlob sampleHash
          ⟨[("tgt", Content.raw "X")], [("dq", "tgt")], []⟩ "dq"
          (SourceFile.content (Content.raw "Y"))
        = createModelBlob sampleHash
          (evictAlias ⟨[("tgt", Content.raw "X")], [("dq", "tgt")], []⟩ "dq")
          "dq" (SourceFile.content (Content.raw "Y"))
      ∧ lookupKV (createModelBlob sampleHash
          ⟨[("tgt", Content.raw "X")], [("dq", "tgt")], []⟩ "dq"
          (SourceFile.content (Content.raw "Y"))).1.aliases "dq" = none
      ∧ resolveDigest ⟨[("tgt", Content.raw "X")], [("dq", "tgt")], []⟩ "dq"
        = ([], "dq"))
    ∧ ((lookupKV ([("tgt", Content.raw "X")] : List (String × Content))
        "tgt").isSome = true →
      createModelBlob sampleHash
          ⟨[("tgt", Content.raw "X")], [("dq", "tgt")], []⟩ "dq"
          (SourceFile.content (Content.raw "Y"))
        = (⟨[("tgt", Content.raw "X")], [("dq", "tgt")], []⟩, none)
      ∧ resolveDigest ⟨[("tgt", Content.raw "X")], [("dq", "tgt")], []⟩ "dq"
        = (["using cached layer " ++ "tgt"], "tgt"))) :=
  ⟨claim_C6_alias_resolution sampleHash
      ⟨[("sha256:r:X", Content.raw "X")], [("dq", "gone")], []⟩ "dq" "gone"
      (SourceFile.content (Content.raw "Y")) rfl (by decide),
   claim_C6_alias_resolution sampleHash
      ⟨[("tgt", Content.raw "X")], [("dq", "tgt")], []⟩ "dq" "tgt"
      (SourceFile.content (Content.raw "Y")) rfl (by decide)⟩

/-- Counterexample to claim C6 as stated: a build-loop alias lookup whose
target blob is missing completes the build successfully but leaves the
stale alias entry in the cache — it is not removed. -/
theorem claim_C6_counterexample :
    (CreateCommunityModel sampleHash sampleParse false "n" ["sha256:r:X"]
        ⟨[("sha256:r:X", Content.raw "X")],
         [("sha256:r:X", "sha256:gone")], []⟩).1.aliases
      = [("sha256:r:X", "sha256:gone")]
    ∧ lookupKV ([("sha256:r:X", Content.raw "X")] : List (String × Content))
        "sha256:gone" = none
    ∧ (CreateCommunityModel sampleHash sampleParse false "n" ["sha256:r:X"]
        ⟨[("sha256:r:X", Content.raw "X")],
         [("sha256:r:X", "sha256:gone")], []⟩).2.2 = none :=
  ⟨rfl, rfl, rfl⟩

theorem contains_of_mem (l : List String) (x : String) (h : x ∈ l) :
    l.contains x = true := by
  induction l with
  | nil => cases h
  | cons y ys ih =>
    cases h with
    | head => simp [List.contains, List.elem]
    | tail _ hm =>
      by_cases hxy : x = y
      · subst hxy; simp [List.contains, List.elem]
      · have hb : (x == y) = false := by simp [hxy]
        simp only [List.contains, List.elem, hb]
        exact ih hm

theorem config_mem_referenced :
    ∀ (ms : List (String × Manifest)) (n : String) (m : Manifest),
      m.config.digest ∈ referencedDigests (updateKV ms n m) := by
  intro ms
  induction ms with
  | nil => intro n m; simp [updateKV, referencedDigests]
  | cons kv tl ih =>
    intro n m
    obtain ⟨k0, m0⟩ := kv
    by_cases h : k0 = n
    · simp [updateKV, h, referencedDigests]
    · simp only [updateKV, if_neg h, referencedDigests]
      exact List.mem_cons_of_mem _ (List.mem_append_right _ (ih n m))

theorem mergeScan_all_pass (blobs : List (String × Content))
    (msgs : List String) :
    ∀ (ls : List Layer) (ps : ParamMap) (e : Option String),
      (∀ l ∈ ls, l.mediaType ≠ messageMediaType
        ∧ l.mediaType ≠ paramsMediaType) →
      mergeScan blobs msgs ls ps e = (ls, ps, e) := by
  intro ls
  induction ls with
  | nil => intro ps e _; simp [mergeScan]
  | cons l tl ih =>
    intro ps e hall
    obtain ⟨h1, h2⟩ := hall l (List.mem_cons_self l tl)
    have htl := fun l2 hl2 => hall l2 (List.mem_cons_of_mem l hl2)
    simp [mergeScan, h1, h2, ih ps e htl]

theorem mergeLayers_all_pass (blobs : List (String × Content))
    (H : Content → String) (layers : List Layer)
    (hall : ∀ l ∈ layers, l.mediaType ≠ messageMediaType
      ∧ l.mediaType ≠ paramsMediaType) :
    mergeLayers blobs H [] [] layers = Except.ok (layers, [], blobs) := by
  have hs := mergeScan_all_pass blobs [] layers [] none hall
  simp [mergeLayers, hs]

theorem filterMap_status_nil :
    ∀ ls : List Layer, (∀ l ∈ ls, l.status = "") →
      ls.filterMap (fun l => if l.status = "" then none else some l.status)
        = [] := by
  intro ls
  induction ls with
  | nil => intro _; simp
  | cons l tl ih =>
    intro h
    have h0 := h l (List.mem_cons_self l tl)
    simp [List.filterMap_cons, h0,
      ih (fun l2 hl2 => h l2 (List.mem_cons_of_mem l hl2))]

theorem buildFromBase_ok (H : Content → String) (noPrune : Bool)
    (name : String) (st : Store) (ev : List String) (bl : List LayerGGML)
    (st2 : Store) (ev2 : List String)
    (h : buildFromBase H noPrune name st ev bl = (st2, ev2, none)) :
    ∃ layers1 ps blobs1,
      mergeLayers st.blobs H [] [] (bl.map (fun b => b.layer))
        = Except.ok (layers1, ps, blobs1)
      ∧ lookupKV st2.manifests name
          = some ⟨⟨H (Content.configJson (configOf bl layers1)),
              configMediaType, ""⟩, layers1⟩
      ∧ lookupKV st2.blobs (H (Content.configJson (configOf bl layers1)))
          = some (Content.configJson (configOf bl layers1)) := by
  cases hml : mergeLayers st.blobs H [] [] (bl.map (fun b => b.layer)) with
  | error e => simp [buildFromBase, hml] at h
  | ok t =>
    obtain ⟨layers1, ps, blobs1⟩ := t
    refine ⟨layers1, ps, blobs1, rfl, ?_⟩
    simp only [buildFromBase, hml] at h
    have hst := congrArg Prod.fst h
    simp only at hst
    rw [← hst]
    cases hold : lookupKV st.manifests name with
    | none =>
      simp only [hold, newLayer]
      exact ⟨lookupKV_update_self _ _ _, lookupKV_update_self _ _ _⟩
    | some o =>
      cases noPrune with
      | true =>
        simp only [hold, newLayer, if_true]
        exact ⟨lookupKV_update_self _ _ _, lookupKV_update_self _ _ _⟩
      | false =>
        simp only [hold, newLayer, Bool.false_eq_true, if_false, removeLayers]
        constructor
        · exact lookupKV_update_self _ _ _
        · have hmem : (⟨⟨H (Content.configJson (configOf bl layers1)),
              configMediaType, ""⟩, layers1⟩ : Manifest).config.digest
              ∈ referencedDigests (updateKV st.manifests name
                ⟨⟨H (Content.configJson (configOf bl layers1)),
                  configMediaType, ""⟩, layers1⟩) :=
            config_mem_referenced st.manifests name _
          have hpred : (!(List.contains
                (o.config.digest :: o.layers.map (fun l => l.digest))
                (H (Content.configJson (configOf bl layers1))))
              || (referencedDigests (updateKV st.manifests name
                  ⟨⟨H (Content.configJson (configOf bl layers1)),
                    configMediaType, ""⟩, layers1⟩)).contains
                (H (Content.configJson (configOf bl layers1)))) = true := by
            rw [contains_of_mem _ _ hmem]
            simp
          rw [lookupKV_filter_key
            (fun k => (!(List.contains
                (o.config.digest :: o.layers.map (fun l => l.digest)) k)
              || (referencedDigests (updateKV st.manifests name
                  ⟨⟨H (Content.configJson (configOf bl layers1)),
                    configMediaType, ""⟩, layers1⟩)).contains k))
            _ _ hpred]
          exact lookupKV_update_self _ _ _

/-- Claim C9: for every published manifest, RootFS.DiffIDs of its config
equals, in order, the digests of the manifest's Layers sequence (the
final artifact layer list passed to the manifest write). -/
theorem claim_C9_diffids_invariant (H : Content → String) (parse : ParseFn)
    (noPrune : Bool) (name : String) (dArr : List String) (st st2 : Store)
    (ev : List String)
    (h : CreateCommunityModel H parse noPrune name dArr st = (st2, ev, none)) :
    ∃ m cfg, lookupKV st2.manifests name = some m
      ∧ lookupKV st2.blobs m.config.digest = some (Content.configJson cfg)
      ∧ cfg.rootDiffIDs = m.layers.map (fun l => l.digest) := by
  rcases hpd : processDigests parse st [] [] dArr with ⟨st1, ev1, bl, e1⟩
  cases e1 with
  | some e => simp [CreateCommunityModel, hpd] at h
  | none =>
    have hb : buildFromBase H noPrune name st1 ev1 bl = (st2, ev, none) := by
      simpa [CreateCommunityModel, hpd] using h
    obtain ⟨layers1, ps, blobs1, hml, hman, hblob⟩ :=
      buildFromBase_ok H noPrune name st1 ev1 bl st2 ev hb
    exact ⟨_, configOf bl layers1, hman, hblob, by simp [configOf]⟩

/-- Witness for C9 at a concrete successful build from no input files. -/
theorem claim_C9_diffids_invariant_witness :
    ∃ m cfg,
      lookupKV ([("n", (⟨⟨sampleHash (Content.configJson (configOf [] [])),
          configMediaType, ""⟩, []⟩ : Manifest))] : List (String × Manifest))
          "n" = some m
      ∧ lookupKV ([(sampleHash (Content.configJson (configOf [] [])),
          Content.configJson (configOf [] []))] : List (String × Content))
          m.config.digest = some (Content.configJson cfg)
      ∧ cfg.rootDiffIDs = m.layers.map (fun l => l.digest) :=
  claim_C9_diffids_invariant sampleHash sampleParse false "n" [] ⟨[], [], []⟩
    ⟨[(sampleHash (Content.configJson (configOf [] [])),
       Content.configJson (configOf [] []))], [],
     [("n", ⟨⟨sampleHash (Content.configJson (configOf [] [])),
        configMediaType, ""⟩, []⟩)]⟩
    ["writing manifest", "success"] rfl

theorem mergeLayers_ok_msgkind (blobs : List (String × Content))
    (H : Content → String) (layers final : List Layer) (pFin : ParamMap)
    (blobs2 : List (String × Content))
    (h : mergeLayers blobs H [] [] layers = Except.ok (final, pFin, blobs2)) :
    final.filter isMsgKindLayer = layers.filter isMsgKindLayer := by
  rcases hscan : mergeScan blobs [] layers [] none with ⟨kept, ps2, e2⟩
  have hkept : kept = layers.filter (keepPred blobs []) := by
    have h2 := mergeScan_kept blobs [] layers [] none
    rw [hscan] at h2
    exact h2
  cases e2 with
  | some e => simp [mergeLayers, hscan] at h
  | none =>
    cases hp : ps2.isEmpty with
    | true =>
      simp only [mergeLayers, hscan, List.isEmpty_nil, if_true, hp] at h
      obtain ⟨hf, _, _⟩ := by simpa [Prod.ext_iff] using (Except.ok.inj h)
      rw [← hf, hkept]
      exact filter_keep_msgkind_of_empty blobs layers
    | false =>
      simp only [mergeLayers, hscan, List.isEmpty_nil, if_true, hp,
        Bool.false_eq_true, if_false, newLayer] at h
      obtain ⟨hf, _, _⟩ := by simpa [Prod.ext_iff] using (Except.ok.inj h)
      rw [← hf, List.filter_append, hkept,
        filter_keep_msgkind_of_empty blobs layers]
      simp [isMsgKindLayer, paramsMT_ne_msgMT, paramsMT_ne_messagesMT]

/-- Claim C10: in CreateCommunityModel the working message set is empty
at every point (the source declares it and never adds to it), so the
message-override branch never removes an inherited message-history layer
and no new message layer is ever appended: the published manifest keeps
exactly the message-kind layers of the parsed base layers. -/
theorem claim_C10_empty_messages (H : Content → String) (parse : ParseFn)
    (noPrune : Bool) (name : String) (dArr : List String) (st st1 : Store)
    (ev1 : List String) (bl : List LayerGGML) (st2 : Store) (ev : List String)
    (m : Manifest)
    (hp : processDigests parse st [] [] dArr = (st1, ev1, bl, none))
    (hrun : CreateCommunityModel H parse noPrune name dArr st = (st2, ev, none))
    (hm : lookupKV st2.manifests name = some m) :
    m.layers.filter isMsgKindLayer
      = (bl.map (fun b => b.layer)).filter isMsgKindLayer := by
  have hb : buildFromBase H noPrune name st1 ev1 bl = (st2, ev, none) := by
    simpa [CreateCommunityModel, hp] using hrun
  obtain ⟨layers1, ps, blobs1, hml, hman, _⟩ :=
    buildFromBase_ok H noPrune name st1 ev1 bl st2 ev hb
  rw [hm] at hman
  have hmm := Option.some.inj hman
  rw [hmm]
  exact mergeLayers_ok_msgkind st1.blobs H (bl.map (fun b => b.layer))
    layers1 ps blobs1 hml

/-- Witness for C10: a build whose parser contributes one inherited
message-history layer; the published manifest keeps it unchanged. -/
theorem claim_C10_empty_messages_witness :
    (([⟨"sha256:r:w", messageMediaType, ""⟩] : List Layer).filter
        isMsgKindLayer)
      = ((([⟨⟨"sha256:r:w", messageMediaType, ""⟩, none⟩] : List LayerGGML).map
          (fun b => b.layer)).filter isMsgKindLayer) :=
  claim_C10_empty_messages sampleHash msgParse false "n" ["sha256:r:w"]
    ⟨[("sha256:r:w", Content.raw "w")], [], []⟩
    ⟨[("sha256:r:w", Content.raw "w")], [], []⟩ []
    [⟨⟨"sha256:r:w", messageMediaType, ""⟩, none⟩]
    ⟨updateKV [("sha256:r:w", Content.raw "w")]
        (sampleHash (Content.configJson (configOf
          [⟨⟨"sha256:r:w", messageMediaType, ""⟩, none⟩]
          [⟨"sha256:r:w", messageMediaType, ""⟩])))
        (Content.configJson (configOf
          [⟨⟨"sha256:r:w", messageMediaType, ""⟩, none⟩]
          [⟨"sha256:r:w", messageMediaType, ""⟩])),
     [],
     [("n", ⟨⟨sampleHash (Content.configJson (configOf
          [⟨⟨"sha256:r:w", messageMediaType, ""⟩, none⟩]
          [⟨"sha256:r:w", messageMediaType, ""⟩])), configMediaType, ""⟩,
        [⟨"sha256:r:w", messageMediaType, ""⟩]⟩)]⟩
    ["writing manifest", "success"]
    ⟨⟨sampleHash (Content.configJson (configOf
        [⟨⟨"sha256:r:w", messageMediaType, ""⟩, none⟩]
        [⟨"sha256:r:w", messageMediaType, ""⟩])), configMediaType, ""⟩,
      [⟨"sha256:r:w", messageMediaType, ""⟩]⟩
    rfl rfl rfl

theorem processDigests_simple (g : Content → Option GGMLInfo) (st : Store)
    (ha : st.aliases = []) :
    ∀ (ds : List String) (ev : List String) (acc : List LayerGGML),
      (∀ d ∈ ds, (lookupKV st.blobs d).isSome = true) →
      processDigests (simpleParse g) st ev acc ds
        = (st, ev, acc ++ ds.map (fun d =>
            ⟨⟨d, modelMediaType, ""⟩,
             g ((lookupKV st.blobs d).getD (Content.raw ""))⟩), none) := by
  intro ds
  induction ds with
  | nil => intro ev acc _; simp [processDigests]
  | cons d tl ih =>
    intro ev acc hall
    have hres : resolveDigest st d = ([], d) := by
      simp [resolveDigest, ha, lookupKV]
    cases hcl : lookupKV st.blobs d with
    | none =>
      have := hall d (List.mem_cons_self d tl)
      rw [hcl] at this
      simp at this
    | some c =>
      have htl := fun d2 hd2 => hall d2 (List.mem_cons_of_mem d hd2)
      have hih := ih ev
        (acc ++ [(⟨⟨d, modelMediaType, ""⟩, g c⟩ : LayerGGML)]) htl
      simp [processDigests, hres, hcl, simpleParse, hih, List.append_assoc]

theorem buildFromBase_model (H : Content → String) (noPrune : Bool)
    (name : String) (st : Store) (ev : List String) (bl : List LayerGGML)
    (hall : ∀ b2 ∈ bl, b2.layer.mediaType = modelMediaType
      ∧ b2.layer.status = "")
    (hold : lookupKV st.manifests name = none) :
    buildFromBase H noPrune name st ev bl
      = (⟨updateKV st.blobs (H (Content.configJson (cfgOf bl)))
            (Content.configJson (cfgOf bl)),
          st.aliases,
          updateKV st.manifests name
            ⟨⟨H (Content.configJson (cfgOf bl)), configMediaType, ""⟩,
             bl.map (fun b => b.layer)⟩⟩,
        ev ++ ["writing manifest", "success"], none) := by
  have hml := mergeLayers_all_pass st.blobs H (bl.map (fun b => b.layer)) (by
    intro l hl
    rw [List.mem_map] at hl
    obtain ⟨b2, hb2, hb2e⟩ := hl
    obtain ⟨hmt, _⟩ := hall b2 hb2
    subst hb2e
    constructor
    · rw [hmt]; exact modelMT_ne_msgMT
    · rw [hmt]; exact modelMT_ne_paramsMT)
  have hstat : ∀ l ∈ (bl.map (fun b => b.layer))
      ++ [(⟨H (Content.configJson (configOf bl (bl.map (fun b => b.layer)))),
          configMediaType, ""⟩ : Layer)], l.status = "" := by
    intro l hl
    rcases List.mem_append.mp hl with hl1 | hl2
    · rw [List.mem_map] at hl1
      obtain ⟨b2, hb2, he⟩ := hl1
      subst he
      exact (hall b2 hb2).2
    · simp only [List.mem_singleton] at hl2
      subst hl2
      rfl
  simp only [buildFromBase, hml, newLayer, hold]
  rw [filterMap_status_nil _ hstat]
  simp [cfgOf]

/-- Counterexample to claim C8 as stated: in a concrete two-file build
the published config's RootFS.DiffIDs is exactly the two input digests —
the config layer's own digest is not a member of DiffIDs, so DiffIDs is
not [digest(a), digest(b), digest(config)]. -/
theorem claim_C8_counterexample :
    manifestConfigDiffIDs
        (CreateCommunityModel sampleHash sampleParse false "n"
          [sampleHash (Content.raw "A"), sampleHash (Content.raw "B")]
          (twoBlobStore sampleHash "A" "B")).1 "n"
      = some [sampleHash (Content.raw "A"), sampleHash (Content.raw "B")]
    ∧ (some [sampleHash (Content.raw "A"), sampleHash (Content.raw "B")]
        : Option (List String))
      ≠ some [sampleHash (Content.raw "A"), sampleHash (Content.raw "B"),
          sampleHash (Content.configJson (cfgOf (twoFileBase sampleHash
            (fun _ => some ⟨"gguf", "llama", "8B", "Q4_0"⟩) "A" "B")))] :=
  ⟨rfl, by decide⟩

/-- Claim C8 (amended): a build from two input files with distinct
digests, no prior manifest and no aliases publishes a manifest whose
layers are the two model layers in order, records
RootFS.DiffIDs = [digest(a), digest(b)] — the config layer's digest is
not part of DiffIDs — skips the garbage-collection step (no old
manifest, the store only grows by the config blob), and ends with the
events "writing manifest" then the terminal "success". -/
theorem claim_C8_two_file_build (H : Content → String)
    (g : Content → Option GGMLInfo) (name a b : String)
    (hne : H (Content.raw a) ≠ H (Content.raw b)) :
    CreateCommunityModel H (simpleParse g) false name
        [H (Content.raw a), H (Content.raw b)] (twoBlobStore H a b)
      = (⟨updateKV (twoBlobStore H a b).blobs
            (H (Content.configJson (cfgOf (twoFileBase H g a b))))
            (Content.configJson (cfgOf (twoFileBase H g a b))),
          [],
          [(name, ⟨⟨H (Content.configJson (cfgOf (twoFileBase H g a b))),
              configMediaType, ""⟩,
            (twoFileBase H g a b).map (fun x => x.layer)⟩)]⟩,
        ["writing manifest", "success"], none)
    ∧ (cfgOf (twoFileBase H g a b)).rootDiffIDs
        = [H (Content.raw a), H (Content.raw b)] := by
  have hlookA : lookupKV (twoBlobStore H a b).blobs (H (Content.raw a))
      = some (Content.raw a) := by
    simp [twoBlobStore, lookupKV]
  have hlookB : lookupKV (twoBlobStore H a b).blobs (H (Content.raw b))
      = some (Content.raw b) := by
    have hne2 : H (Content.raw b) ≠ H (Content.raw a) := fun h => hne h.symm
    simp [twoBlobStore, lookupKV, hne2]
  have hpd := processDigests_simple g (twoBlobStore H a b) rfl
    [H (Content.raw a), H (Content.raw b)] [] [] (by
      intro d hd
      rcases List.mem_cons.mp hd with h1 | h2
      · subst h1; rw [hlookA]; rfl
      · simp only [List.mem_singleton] at h2
        subst h2; rw [hlookB]; rfl)
  simp only [List.map_cons, List.map_nil, hlookA, hlookB, Option.getD_some,
    List.nil_append] at hpd
  have hall : ∀ b2 ∈ twoFileBase H g a b,
      b2.layer.mediaType = modelMediaType ∧ b2.layer.status = "" := by
    intro b2 hb2
    simp only [twoFileBase, List.mem_cons, List.mem_singleton,
      List.not_mem_nil, or_false] at hb2
    rcases hb2 with h | h <;> subst h <;> exact ⟨rfl, rfl⟩
  have hb := buildFromBase_model H false name (twoBlobStore H a b) []
    (twoFileBase H g a b) hall rfl
  constructor
  · have hstep : CreateCommunityModel H (simpleParse g) false name
        [H (Content.raw a), H (Content.raw b)] (twoBlobStore H a b)
        = buildFromBase H false name (twoBlobStore H a b) []
            (twoFileBase H g a b) := by
      simp only [CreateCommunityModel, hpd, twoFileBase]
    rw [hstep, hb]
    rfl
  · simp [cfgOf, configOf, twoFileBase]

/-- Witness for C8 (amended) at two concrete distinct input files. -/
theorem claim_C8_two_file_build_witness :
    CreateCommunityModel sampleHash (simpleParse (fun _ => none)) false "n"
        [sampleHash (Content.raw "A"), sampleHash (Content.raw "B")]
        (twoBlobStore sampleHash "A" "B")
      = (⟨updateKV (twoBlobStore sampleHash "A" "B").blobs
            (sampleHash (Content.configJson
              (cfgOf (twoFileBase sampleHash (fun _ => none) "A" "B"))))
            (Content.configJson
              (cfgOf (twoFileBase sampleHash (fun _ => none) "A" "B"))),
          [],
          [("n", ⟨⟨sampleHash (Content.configJson
              (cfgOf (twoFileBase sampleHash (fun _ => none) "A" "B"))),
              configMediaType, ""⟩,
            (twoFileBase sampleHash (fun _ => none) "A" "B").map
              (fun x => x.layer)⟩)]⟩,
        ["writing manifest", "success"], none)
    ∧ (cfgOf (twoFileBase sampleHash (fun _ => none) "A" "B")).rootDiffIDs
        = [sampleHash (Content.raw "A"), sampleHash (Content.raw "B")] :=
  claim_C8_two_file_build sampleHash (fun _ => none) "n" "A" "B" (by decide)
